import Mathlib

/-!
Verification of the run-report aggregation core of `ctrl_bps`
(`src/python/lsst/ctrl/bps/report.py`).

The embedding models each Python construct explicitly:

* raised exceptions (`KeyError`, `ValueError`) become `Except String`;
* Python dicts (insertion ordered, assignment updates in place) become
  association lists with an insert-or-update operation;
* the `WmsStates` enumeration and the report record types are imported by
  `report.py` from elsewhere in the package and are not part of the given
  source, so they are modelled from the specification;
* the expression `int(succeeded / total_number_jobs * 100)` performs IEEE-754
  binary64 arithmetic; it is modelled exactly (round to nearest, ties to even,
  53-bit significand) over natural-number significand/exponent pairs, which is
  the IEEE behaviour everywhere in the normal range (overflow and subnormals
  are unreachable for realistic job counts and are not modelled).
-/

deriving instance DecidableEq for Except

/-- Turns an `Except` into a Bool recording whether it is `ok`, i.e. whether
the modelled Python code returns normally rather than raising. -/
def exceptOk {ε α : Type} : Except ε α → Bool
  | Except.ok _ => true
  | Except.error _ => false

/-- Fold over a list where the step may raise; a raise aborts the whole loop.
Models a Python `for` loop whose body may raise an exception. -/
def foldlExcept {ε σ α : Type} (f : σ → α → Except ε σ) : σ → List α → Except ε σ
  | s, [] => Except.ok s
  | s, a :: as =>
    match f s a with
    | Except.error e => Except.error e
    | Except.ok s2 => foldlExcept f s2 as

/-- Map over a list where the element transformation may raise; a raise aborts
the whole loop. Models a Python `for` loop accumulating one result per item. -/
def mapExcept {ε α β : Type} (f : α → Except ε β) : List α → Except ε (List β)
  | [] => Except.ok []
  | a :: as =>
    match f a with
    | Except.error e => Except.error e
    | Except.ok b =>
      match mapExcept f as with
      | Except.error e => Except.error e
      | Except.ok bs => Except.ok (b :: bs)

/-! ## Python string primitives used by `report.py` -/

/-- Helper for `pySplit`: accumulates the current chunk (reversed). -/
def pySplitAux (c : Char) : List Char → List Char → List (List Char)
  | [], acc => [acc.reverse]
  | x :: xs, acc =>
    if x = c then acc.reverse :: pySplitAux c xs [] else pySplitAux c xs (x :: acc)

/-- Python `s.split(sep)` for a one-character separator, as used with `";"`
and `":"` in `report.py`; on the empty string it yields `[""]`, like Python. -/
def pySplit (s : String) (c : Char) : List String :=
  (pySplitAux c s.toList []).map (fun l => String.mk l)

/-- Python `s.startswith(p)`: a prefix test on the raw character sequence. -/
def pyStartsWith (s p : String) : Bool :=
  p.toList.isPrefixOf s.toList

/-- Python `str` comparison: lexicographic on code points. -/
def pyStrLt : List Char → List Char → Bool
  | [], [] => false
  | [], _ :: _ => true
  | _ :: _, [] => false
  | a :: as, b :: bs => if a = b then pyStrLt as bs else decide (a < b)

/-- The ordering used by Python `sorted` on strings, as a relation on
`String`: `a` comes no later than `b` when `b` is not strictly below `a`. -/
def pyLe (a b : String) : Prop :=
  pyStrLt b.toList a.toList = false

instance : DecidableRel pyLe :=
  fun a b => inferInstanceAs (Decidable (pyStrLt b.toList a.toList = false))

/-- Parses the digit run of a Python decimal integer literal. -/
def pyDigitsAux : Nat → List Char → Option Nat
  | acc, [] => some acc
  | acc, c :: cs =>
    if c.isDigit then pyDigitsAux (10 * acc + (c.toNat - 48)) cs else none

/-- Python `int(s)`: strips surrounding whitespace, accepts an optional sign
followed by a nonempty digit run, and raises `ValueError` otherwise.
(Underscore digit separators and non-ASCII digits are not modelled; the
run-summary encoding uses plain decimal counts.) -/
def pyIntOfString (s : String) : Except String Int :=
  let cs :=
    ((s.toList.dropWhile Char.isWhitespace).reverse.dropWhile Char.isWhitespace).reverse
  match cs with
  | '-' :: rest =>
    match rest, pyDigitsAux 0 rest with
    | _ :: _, some n => Except.ok (-(n : Int))
    | _, _ => Except.error "ValueError"
  | '+' :: rest =>
    match rest, pyDigitsAux 0 rest with
    | _ :: _, some n => Except.ok ((n : Int))
    | _, _ => Except.error "ValueError"
  | rest =>
    match rest, pyDigitsAux 0 rest with
    | _ :: _, some n => Except.ok ((n : Int))
    | _, _ => Except.error "ValueError"

/-! ## Exact model of the binary64 arithmetic in `int(s / t * 100)` -/

/-- Floor of the base-2 logarithm computed by repeated halving; the first
argument is fuel bounding the recursion depth. -/
def ilog2fuel : Nat → Nat → Nat
  | 0, _ => 0
  | f + 1, n => if 2 ≤ n then ilog2fuel f (n / 2) + 1 else 0

/-- Least `k` with `d ≤ 2 ^ k * n`, computed by repeated doubling; the first
argument is fuel bounding the recursion depth. -/
def clogfuel : Nat → Nat → Nat → Nat
  | 0, _, _ => 0
  | f + 1, n, d => if d ≤ n then 0 else clogfuel f (2 * n) d + 1

/-- Floor of the base-2 logarithm of the positive rational `n / d`. -/
def ratLog2 (n d : Nat) : Int :=
  if d ≤ n then (ilog2fuel n (n / d) : Int) else -(clogfuel d n d : Int)

/-- A positive IEEE-754 binary64 value: the represented number is
`m * 2 ^ (e - 52)` with `2 ^ 52 ≤ m < 2 ^ 53` (zero is `m = 0`). -/
structure B64 where
  m : Nat
  e : Int
  deriving DecidableEq, Repr

/-- Rounds the positive rational `n / d` to binary64: round to nearest,
ties to even, 53 significant bits (the IEEE result in the normal range). -/
def roundPos (n d : Nat) : B64 :=
  let e := ratLog2 n d
  let N := if 52 ≤ e then n else n * 2 ^ (52 - e).toNat
  let D := if 52 ≤ e then d * 2 ^ (e - 52).toNat else d
  let lo := N / D
  let r := N % D
  let m :=
    if D < 2 * r then lo + 1
    else if 2 * r < D then lo
    else if lo % 2 = 0 then lo else lo + 1
  if m = 2 ^ 53 then ⟨2 ^ 52, e + 1⟩ else ⟨m, e⟩

/-- Python float division `a / b` of two nonnegative integers (correctly
rounded binary64 quotient). `b = 0` would raise in Python; `report.py` guards
the division with `if run_report.total_number_jobs`. -/
def f64div (a b : Nat) : B64 :=
  if a = 0 ∨ b = 0 then ⟨0, 0⟩ else roundPos a b

/-- Python float multiplication of a binary64 value by the exact integer 100
(correctly rounded binary64 product). -/
def f64mul100 (x : B64) : B64 :=
  if x.m = 0 then ⟨0, 0⟩
  else if 52 ≤ x.e then roundPos (x.m * 100 * 2 ^ (x.e - 52).toNat) 1
  else roundPos (x.m * 100) (2 ^ (52 - x.e).toNat)

/-- Python `int(x)` on a nonnegative binary64 value: truncation. -/
def b64trunc (x : B64) : Nat :=
  if 52 ≤ x.e then x.m * 2 ^ (x.e - 52).toNat else x.m / 2 ^ (52 - x.e).toNat

/-- The integer printed by `int(succeeded / total * 100)` in `report.py`
line 133, under exact binary64 semantics. -/
def pyPercent (succeeded total : Nat) : Nat :=
  b64trunc (f64mul100 (f64div succeeded total))

/-! ## Data model (types imported by `report.py`, modelled from the spec) -/

/-- Modelled from the spec: the fixed job-state vocabulary (spec section 2,
State Vocabulary), in declaration order as used for output columns. The
enumeration itself is imported by `report.py` and is not part of the given
source file. -/
inductive WmsStates where
  | UNREADY
  | READY
  | RUNNING
  | SUCCEEDED
  | FAILED
  | DELETED
  | HELD
  deriving DecidableEq, Repr

/-- Iteration order of `for state in WmsStates` (declaration order). -/
def WmsStates.all : List WmsStates :=
  [WmsStates.UNREADY, WmsStates.READY, WmsStates.RUNNING, WmsStates.SUCCEEDED,
   WmsStates.FAILED, WmsStates.DELETED, WmsStates.HELD]

/-- Python `Enum.name` for the state vocabulary. -/
def WmsStates.name : WmsStates → String
  | WmsStates.UNREADY => "UNREADY"
  | WmsStates.READY => "READY"
  | WmsStates.RUNNING => "RUNNING"
  | WmsStates.SUCCEEDED => "SUCCEEDED"
  | WmsStates.FAILED => "FAILED"
  | WmsStates.DELETED => "DELETED"
  | WmsStates.HELD => "HELD"

/-- Modelled from the spec: a job state value as delivered by the WMS
collaborator. Spec section 7 (UnknownStateError) requires that a value outside
the declared vocabulary be representable; such values are opaque here. -/
inductive PyStateValue where
  | wms (s : WmsStates)
  | other (tag : String)
  deriving DecidableEq, Repr

/-- Whether a state value belongs to the declared vocabulary. -/
def PyStateValue.inVocab : PyStateValue → Bool
  | PyStateValue.wms _ => true
  | PyStateValue.other _ => false

/-- Modelled from the spec: one job record (spec section 3, JobRecord), with
the two attributes `report.py` reads: `state` and `label`. -/
structure WmsJobReport where
  label : String
  state : PyStateValue
  deriving DecidableEq, Repr

/-- Modelled from the spec: one run report (spec section 3, RunReport).
`job_state_counts` is total over the vocabulary, per the spec invariant that
it has an entry (possibly 0) for every state; `run_summary` is a string with
`""` standing for an absent (`None` or empty, both falsy) summary. -/
structure WmsRunReport where
  wms_id : String
  operator : String
  project : String
  campaign : String
  payload : String
  run : String
  state : WmsStates
  path : String
  total_number_jobs : Nat
  job_state_counts : WmsStates → Nat
  jobs : List WmsJobReport
  run_summary : String

/-- The summary view: column (name, dtype) pairs plus accumulated rows, the
part of the `astropy.table.Table` observable through `report.py`. -/
structure SummaryTable where
  dtype : List (String × String)
  rows : List (List String)
  deriving DecidableEq

/-! ## Embeddings of the functions of `report.py` -/

/-- Embedding of `init_summary` (lines 85-104). -/
def init_summary : SummaryTable :=
  ⟨[("X", "S"), ("STATE", "S"), ("%S", "S"), ("ID", "S"), ("OPERATOR", "S"),
    ("PROJECT", "S"), ("CAMPAIGN", "S"), ("PAYLOAD", "S"), ("RUN", "S")], []⟩

/-- Embedding of the attention-flag block of `add_single_run_summary`
(lines 117-125): `" "` unless the run state is RUNNING, in which case the
first truthy count among FAILED, DELETED, HELD picks the flag. -/
def run_flag (rr : WmsRunReport) : String :=
  if rr.state = WmsStates.RUNNING then
    if rr.job_state_counts WmsStates.FAILED ≠ 0 then "F"
    else if rr.job_state_counts WmsStates.DELETED ≠ 0 then "D"
    else if rr.job_state_counts WmsStates.HELD ≠ 0 then "H"
    else " "
  else " "

/-- Embedding of the percent-succeeded block of `add_single_run_summary`
(lines 127-133): `"UNK"` when `total_number_jobs` is falsy, otherwise the
decimal rendering of `int(succeeded / total_number_jobs * 100)` evaluated in
binary64 arithmetic. -/
def percent_succeeded (rr : WmsRunReport) : String :=
  if rr.total_number_jobs ≠ 0 then
    toString (pyPercent (rr.job_state_counts WmsStates.SUCCEEDED) rr.total_number_jobs)
  else "UNK"

/-- Embedding of `add_single_run_summary` (lines 107-147): builds the row
tuple and appends it to the summary table, returning the table. -/
def add_single_run_summary (summary : SummaryTable) (rr : WmsRunReport) : SummaryTable :=
  { summary with
    rows := summary.rows ++
      [[run_flag rr, rr.state.name, percent_succeeded rr, rr.wms_id, rr.operator,
        rr.project, rr.campaign, rr.payload, rr.run]] }

/-- Dict lookup `d[k]` returning `none` when the key is absent (the Python
lookup raises `KeyError` in that case; callers model the raise). -/
def lookup_label {α : Type} (d : List (String × α)) (k : String) : Option α :=
  (d.find? (fun p => p.1 == k)).map Prod.snd

/-- Dict lookup for the state-keyed grouping. -/
def lookup_state (d : List (WmsStates × List WmsJobReport)) (k : WmsStates) :
    Option (List WmsJobReport) :=
  (d.find? (fun p => p.1 == k)).map Prod.snd

/-- Python dict assignment `d[k] = v`: updates in place when the key exists
(keeping its position), appends otherwise. -/
def dictInsert (d : List (String × Int)) (k : String) (v : Int) : List (String × Int) :=
  if d.any (fun p => p.1 == k) then d.map (fun p => if p.1 == k then (k, v) else p)
  else d ++ [(k, v)]

/-- Loop body of `group_jobs_by_state` (lines 165-166): `by_state[job.state]`
raises `KeyError` when the state value is not a dict key, i.e. not a member of
the vocabulary. -/
def group_step (by_state : List (WmsStates × List WmsJobReport)) (job : WmsJobReport) :
    Except String (List (WmsStates × List WmsJobReport)) :=
  match job.state with
  | PyStateValue.wms s =>
    Except.ok (by_state.map (fun p => if p.1 = s then (p.1, p.2 ++ [job]) else p))
  | PyStateValue.other _ => Except.error "KeyError"

/-- Embedding of `group_jobs_by_state` (lines 150-167): one bucket per
vocabulary state, initialized empty, each job appended to the bucket keyed by
its state. -/
def group_jobs_by_state (jobs : List WmsJobReport) :
    Except String (List (WmsStates × List WmsJobReport)) :=
  foldlExcept group_step (WmsStates.all.map (fun s => (s, []))) jobs

/-- Loop body of `group_jobs_by_label` (lines 184-186): `setdefault` creates
the key on first occurrence, then the job is appended to its group. -/
def label_step (by_label : List (String × List WmsJobReport)) (job : WmsJobReport) :
    List (String × List WmsJobReport) :=
  if by_label.any (fun p => p.1 == job.label) then
    by_label.map (fun p => if p.1 == job.label then (p.1, p.2 ++ [job]) else p)
  else by_label ++ [(job.label, [job])]

/-- Embedding of `group_jobs_by_label` (lines 170-187). -/
def group_jobs_by_label (jobs : List WmsJobReport) : List (String × List WmsJobReport) :=
  jobs.foldl label_step []

/-- Embedding of one iteration of the run-summary parsing loop (lines
219-220): `label, count = part.split(":")` raises unless the part splits into
exactly two pieces, then `int(count)` parses the count. -/
def parse_part (part : String) : Except String (String × Int) :=
  match pySplit part ':' with
  | [label, count] =>
    match pyIntOfString count with
    | Except.error e => Except.error e
    | Except.ok c => Except.ok (label, c)
  | _ => Except.error "ValueError"

/-- Parsing of the whole `run_summary` string (lines 219-222): split on `";"`
and parse each part; the first failing part aborts the loop. -/
def parse_run_summary (s : String) : Except String (List (String × Int)) :=
  mapExcept parse_part (pySplit s ';')

/-- Result of the label-order block: the label order, the expected-totals
dict, and whether the could-not-determine-order warning was printed. -/
structure LabelOrderResult where
  label_order : List String
  by_label_totals : List (String × Int)
  warned : Bool
  deriving DecidableEq, Repr

/-- Embedding of the label-order block of `print_single_run_summary` (lines
212-225). With a truthy `run_summary`: a synthetic `("pipetaskInit", 1)` entry
is prepended exactly when the string does not start with `"pipetaskInit"`,
then the declared `(label, count)` pairs are appended in order. With a falsy
`run_summary`: a warning is printed and the order is the observed labels
sorted alphabetically. -/
def compute_label_order (rr : WmsRunReport) : Except String LabelOrderResult :=
  if rr.run_summary = "" then
    Except.ok
      ⟨List.insertionSort pyLe ((group_jobs_by_label rr.jobs).map Prod.fst), [], true⟩
  else
    let pre : List String × List (String × Int) :=
      if pyStartsWith rr.run_summary "pipetaskInit" then ([], [])
      else (["pipetaskInit"], [("pipetaskInit", 1)])
    match parse_run_summary rr.run_summary with
    | Except.error e => Except.error e
    | Except.ok parts =>
      let acc := parts.foldl
        (fun acc lc => (acc.1 ++ [lc.1], dictInsert acc.2 lc.1 lc.2)) pre
      Except.ok ⟨acc.1, acc.2, false⟩

/-- One row of the details table: the label cell, the per-state count cells in
`WmsStates` declaration order, and the EXPECTED cell. (Line 253 appends the
expected count wrapped in a singleton list; the table stores the count.) -/
structure DetailsRow where
  label : String
  counts : List Int
  expected : Int
  deriving DecidableEq, Repr

/-- Embedding of one iteration of the per-label loop of
`print_single_run_summary` (lines 236-254). The counts come from the observed
jobs when the label was observed (grouping them by state may raise on an
out-of-vocabulary state), else the expected shortfall is attributed to
UNREADY when an expected total is known, else every count is the sentinel -1.
Line 253 then reads `by_label_totals[label]` unconditionally, raising
`KeyError` when the label has no expected total. -/
def breakdown_row (by_label : List (String × List WmsJobReport))
    (by_label_totals : List (String × Int)) (label : String) :
    Except String DetailsRow :=
  let countsE : Except String (WmsStates → Int) :=
    match lookup_label by_label label with
    | some jobs_for_label =>
      match group_jobs_by_state jobs_for_label with
      | Except.error e => Except.error e
      | Except.ok by_label_state =>
        Except.ok (fun s => (((lookup_state by_label_state s).getD []).length : Int))
    | none =>
      match lookup_label by_label_totals label with
      | some t =>
        let already_counted : Int := (WmsStates.all.map (fun _ => (0 : Int))).sum
        if already_counted ≠ t then
          Except.ok (fun s => if s = WmsStates.UNREADY then 0 + (t - already_counted) else 0)
        else Except.ok (fun _ => 0)
      | none => Except.ok (fun _ => (-1 : Int))
  match countsE with
  | Except.error e => Except.error e
  | Except.ok counts =>
    match lookup_label by_label_totals label with
    | some expected => Except.ok ⟨label, WmsStates.all.map counts, expected⟩
    | none => Except.error "KeyError"

/-- Embedding of the label-breakdown portion of `print_single_run_summary`
(lines 209-254): group jobs by label, determine the label order, emit the
synthetic TOTAL row built from `job_state_counts` and the sum of the expected
totals, then one row per label in order. An exception anywhere yields no
printed breakdown. -/
def breakdown_rows (rr : WmsRunReport) : Except String (List DetailsRow) :=
  let by_label := group_jobs_by_label rr.jobs
  match compute_label_order rr with
  | Except.error e => Except.error e
  | Except.ok lr =>
    let total_row : DetailsRow :=
      ⟨"TOTAL", WmsStates.all.map (fun s => (rr.job_state_counts s : Int)),
        (lr.by_label_totals.map Prod.snd).sum⟩
    match mapExcept (breakdown_row by_label lr.by_label_totals) lr.label_order with
    | Except.error e => Except.error e
    | Except.ok rows => Except.ok (total_row :: rows)

/-! ## Concrete run reports used as witnesses and counterexamples -/

/-- A neutral run report: no jobs, no summary, every count zero. -/
def rrBase : WmsRunReport :=
  { wms_id := "101", operator := "ops", project := "proj", campaign := "camp",
    payload := "pay", run := "run1", state := WmsStates.RUNNING, path := "/work",
    total_number_jobs := 0, job_state_counts := fun _ => 0, jobs := [],
    run_summary := "" }

/-- A run with one observed job but no run summary: the fallback path. -/
def rrFallback : WmsRunReport :=
  { rrBase with
    jobs := [⟨"isr", PyStateValue.wms WmsStates.RUNNING⟩],
    total_number_jobs := 1,
    job_state_counts := fun s => if s = WmsStates.RUNNING then 1 else 0 }

/-- A run whose run summary is present but malformed (no colon). -/
def rrMalformed : WmsRunReport :=
  { rrBase with run_summary := "isr" }

/-- A run whose run summary already starts with the pipetaskInit label. -/
def rrRT1 : WmsRunReport :=
  { rrBase with run_summary := "pipetaskInit:1;isr:5;calibrate:3" }

/-- A run whose run summary does not mention pipetaskInit. -/
def rrRT2 : WmsRunReport :=
  { rrBase with run_summary := "isr:5;calibrate:3" }

/-- A run whose first declared label merely has "pipetaskInit" as a proper
string prefix. -/
def rrPX : WmsRunReport :=
  { rrBase with run_summary := "pipetaskInitX:2" }

/-- A run with a well-formed summary, one observed job, and two declared
labels without observed jobs. -/
def rrW7 : WmsRunReport :=
  { rrBase with
    run_summary := "isr:5;calibrate:0",
    jobs := [⟨"isr", PyStateValue.wms WmsStates.SUCCEEDED⟩],
    total_number_jobs := 1,
    job_state_counts := fun s => if s = WmsStates.SUCCEEDED then 1 else 0 }

/-- A run with 29 of 100 jobs succeeded: 29 / 100 * 100 in binary64 is
28.999999999999996, so the printed percentage is 28, not 29. -/
def rr29 : WmsRunReport :=
  { rrBase with
    state := WmsStates.SUCCEEDED,
    total_number_jobs := 100,
    job_state_counts := fun s => if s = WmsStates.SUCCEEDED then 29 else 0 }

/-- A run with two observed labels and no run summary. -/
def rrTwoJobs : WmsRunReport :=
  { rrBase with
    jobs := [⟨"isr", PyStateValue.wms WmsStates.RUNNING⟩,
             ⟨"calibrate", PyStateValue.wms WmsStates.SUCCEEDED⟩],
    total_number_jobs := 2,
    job_state_counts := fun s =>
      if s = WmsStates.RUNNING then 1 else if s = WmsStates.SUCCEEDED then 1 else 0 }

/-- A job list whose states are all in the vocabulary. -/
def jobsGood : List WmsJobReport :=
  [⟨"isr", PyStateValue.wms WmsStates.RUNNING⟩,
   ⟨"isr", PyStateValue.wms WmsStates.FAILED⟩,
   ⟨"calibrate", PyStateValue.wms WmsStates.RUNNING⟩]

/-- A job list containing a job whose state is outside the vocabulary. -/
def jobsBad : List WmsJobReport :=
  [⟨"isr", PyStateValue.wms WmsStates.RUNNING⟩,
   ⟨"isr", PyStateValue.other "weird"⟩]

/-! ## Order properties of the Python string comparison -/

theorem pyStrLt_asymm : ∀ as bs : List Char, pyStrLt as bs = true → pyStrLt bs as = false := by
  intro as
  induction as with
  | nil =>
    intro bs h
    cases bs with
    | nil => simp [pyStrLt] at h
    | cons b bs => rfl
  | cons a as ih =>
    intro bs h
    cases bs with
    | nil => simp [pyStrLt] at h
    | cons b bs =>
      by_cases hab : a = b
      · subst hab
        simp only [pyStrLt, if_pos rfl] at h ⊢
        exact ih bs h
      · have hba : b ≠ a := fun e => hab e.symm
        simp only [pyStrLt, if_neg hab, decide_eq_true_eq] at h
        simp only [pyStrLt, if_neg hba, decide_eq_false_iff_not]
        exact lt_asymm h

theorem pyStrLt_le_trans : ∀ as bs cs : List Char,
    pyStrLt bs as = false → pyStrLt cs bs = false → pyStrLt cs as = false := by
  intro as
  induction as with
  | nil =>
    intro bs cs h1 h2
    cases cs with
    | nil => rfl
    | cons c cs => rfl
  | cons a as ih =>
    intro bs cs h1 h2
    cases bs with
    | nil => simp [pyStrLt] at h1
    | cons b bs =>
      cases cs with
      | nil => simp [pyStrLt] at h2
      | cons c cs =>
        by_cases hba : b = a
        · subst hba
          simp only [pyStrLt, if_pos rfl] at h1
          by_cases hcb : c = b
          · subst hcb
            simp only [pyStrLt, if_pos rfl] at h2 ⊢
            exact ih bs cs h1 h2
          · simp only [pyStrLt, if_neg hcb] at h2 ⊢
            exact h2
        · simp only [pyStrLt, if_neg hba, decide_eq_false_iff_not] at h1
          by_cases hcb : c = b
          · subst hcb
            simp only [pyStrLt, if_neg hba, decide_eq_false_iff_not]
            exact h1
          · simp only [pyStrLt, if_neg hcb, decide_eq_false_iff_not] at h2
            by_cases hca : c = a
            · rcases lt_trichotomy b c with hlt | heq | hlt
              · exact absurd (hca ▸ hlt) h1
              · exact absurd heq.symm hcb
              · exact absurd hlt h2
            · simp only [pyStrLt, if_neg hca, decide_eq_false_iff_not]
              exact not_lt.mpr (le_trans (not_lt.mp h1) (not_lt.mp h2))

instance : IsTotal String pyLe :=
  ⟨fun a b => by
    rcases Bool.eq_false_or_eq_true (pyStrLt b.toList a.toList) with h | h
    · exact Or.inr (pyStrLt_asymm b.toList a.toList h)
    · exact Or.inl h⟩

instance : IsTrans String pyLe :=
  ⟨fun a b c h1 h2 => pyStrLt_le_trans a.toList b.toList c.toList h1 h2⟩

/-! ## Helper lemmas about the grouping functions -/

theorem sum_map_add_nat {α : Type} (l : List α) (f g : α → Nat) :
    (l.map (fun a => f a + g a)).sum = (l.map f).sum + (l.map g).sum := by
  induction l with
  | nil => rfl
  | cons a l ih =>
    simp only [List.map_cons, List.sum_cons, ih]
    omega

theorem indicator_sum_one (v : PyStateValue) (h : v.inVocab = true) :
    (WmsStates.all.map (fun s => if v = PyStateValue.wms s then 1 else 0)).sum = 1 := by
  cases v with
  | wms s => cases s <;> decide
  | other t => simp [PyStateValue.inVocab] at h

theorem filter_length_partition (jobs : List WmsJobReport)
    (h : ∀ j ∈ jobs, j.state.inVocab = true) :
    (WmsStates.all.map
      (fun s => (jobs.filter (fun j => decide (j.state = PyStateValue.wms s))).length)).sum
      = jobs.length := by
  induction jobs with
  | nil => decide
  | cons j js ih =>
    have hj : j.state.inVocab = true := h j (List.mem_cons_self j js)
    have hjs : ∀ x ∈ js, x.state.inVocab = true := fun x hx => h x (List.mem_cons_of_mem j hx)
    have step : ∀ s ∈ WmsStates.all,
        ((j :: js).filter (fun x => decide (x.state = PyStateValue.wms s))).length
          = (js.filter (fun x => decide (x.state = PyStateValue.wms s))).length
            + (if j.state = PyStateValue.wms s then 1 else 0) := by
      intro s _
      by_cases hjst : j.state = PyStateValue.wms s
      · simp [List.filter_cons, hjst]
      · simp [List.filter_cons, hjst]
    rw [List.map_congr_left step, sum_map_add_nat, ih hjs, indicator_sum_one j.state hj]
    simp [List.length_cons]

theorem gjs_aux (jobs : List WmsJobReport) :
    ∀ f : WmsStates → List WmsJobReport, (∀ j ∈ jobs, j.state.inVocab = true) →
      foldlExcept group_step (WmsStates.all.map (fun s => (s, f s))) jobs =
        Except.ok (WmsStates.all.map (fun s =>
          (s, f s ++ jobs.filter (fun j => decide (j.state = PyStateValue.wms s))))) := by
  induction jobs with
  | nil =>
    intro f h
    simp [foldlExcept, List.filter_nil]
  | cons j js ih =>
    intro f h
    have hj : j.state.inVocab = true := h j (List.mem_cons_self j js)
    have hjs : ∀ x ∈ js, x.state.inVocab = true := fun x hx => h x (List.mem_cons_of_mem j hx)
    obtain ⟨sj, hsj⟩ : ∃ s, j.state = PyStateValue.wms s := by
      cases hv : j.state with
      | wms s => exact ⟨s, rfl⟩
      | other t => rw [hv] at hj; simp [PyStateValue.inVocab] at hj
    have hstep : group_step (WmsStates.all.map (fun s => (s, f s))) j =
        Except.ok (WmsStates.all.map
          (fun s => (s, if s = sj then f s ++ [j] else f s))) := by
      simp only [group_step, hsj]
      congr 1
      rw [List.map_map]
      apply List.map_congr_left
      intro s _
      by_cases hssj : s = sj
      · simp [hssj]
      · simp [hssj]
    simp only [foldlExcept, hstep]
    rw [ih (fun s => if s = sj then f s ++ [j] else f s) hjs]
    congr 1
    apply List.map_congr_left
    intro s _
    by_cases hssj : s = sj
    · subst hssj
      have hpj : decide (j.state = PyStateValue.wms s) = true := by simp [hsj]
      simp [List.filter_cons, hpj, List.append_assoc]
    · have hpj : decide (j.state = PyStateValue.wms s) = false := by
        simp [hsj]
        intro e
        exact hssj e.symm
      simp [List.filter_cons, hpj, hssj]

theorem gjs_err (jobs : List WmsJobReport) :
    ∀ init : List (WmsStates × List WmsJobReport),
      (∃ j ∈ jobs, j.state.inVocab = false) →
      foldlExcept group_step init jobs = Except.error "KeyError" := by
  induction jobs with
  | nil =>
    intro init hex
    obtain ⟨j, hj, _⟩ := hex
    exact absurd hj (List.not_mem_nil j)
  | cons j js ih =>
    intro init hex
    cases hv : j.state with
    | wms s =>
      simp only [foldlExcept, group_step, hv]
      apply ih
      obtain ⟨x, hx, hxbad⟩ := hex
      rcases List.mem_cons.mp hx with rfl | hxs
      · rw [hv] at hxbad
        simp [PyStateValue.inVocab] at hxbad
      · exact ⟨x, hxs, hxbad⟩
    | other t =>
      simp only [foldlExcept, group_step, hv]

/-! ## Helper lemmas for the label breakdown -/

theorem exceptOk_ok {ε α : Type} (a : α) : exceptOk (Except.ok a : Except ε α) = true := rfl

theorem exceptOk_error {ε α : Type} (e : ε) :
    exceptOk (Except.error e : Except ε α) = false := rfl

theorem label_step_length (acc : List (String × List WmsJobReport)) (j : WmsJobReport) :
    acc.length ≤ (label_step acc j).length := by
  unfold label_step
  rcases Bool.eq_false_or_eq_true (acc.any (fun p => p.1 == j.label)) with h | h
  · rw [h]
    simp
  · rw [h]
    simp

theorem foldl_label_length (js : List WmsJobReport) :
    ∀ acc : List (String × List WmsJobReport), acc.length ≤ (js.foldl label_step acc).length := by
  induction js with
  | nil => intro acc; simp
  | cons j js ih =>
    intro acc
    rw [List.foldl_cons]
    exact le_trans (label_step_length acc j) (ih _)

theorem group_jobs_by_label_ne_nil (jobs : List WmsJobReport) (h : jobs ≠ []) :
    group_jobs_by_label jobs ≠ [] := by
  obtain ⟨j, js, rfl⟩ := List.exists_cons_of_ne_nil h
  unfold group_jobs_by_label
  rw [List.foldl_cons]
  have h1 : label_step [] j = [(j.label, [j])] := by simp [label_step]
  rw [h1]
  intro e
  have hlen := foldl_label_length js [(j.label, [j])]
  rw [e] at hlen
  simp at hlen

theorem insertionSort_ne_nil (l : List String) (h : l ≠ []) :
    List.insertionSort pyLe l ≠ [] := by
  intro e
  have hp := List.perm_insertionSort pyLe l
  rw [e] at hp
  exact h hp.symm.eq_nil

theorem mapExcept_cons_error {ε α β : Type} (f : α → Except ε β) (a : α) (as : List α)
    (e : ε) (h : f a = Except.error e) :
    mapExcept f (a :: as) = Except.error e := by
  simp [mapExcept, h]

theorem lookup_label_nil {α : Type} (k : String) :
    lookup_label ([] : List (String × α)) k = none := rfl

theorem breakdown_row_empty_totals (bl : List (String × List WmsJobReport)) (label : String) :
    ∃ e, breakdown_row bl [] label = Except.error e := by
  cases hbl : lookup_label bl label with
  | some jl =>
    cases hg : group_jobs_by_state jl with
    | error e => exact ⟨e, by simp [breakdown_row, hbl, hg, lookup_label_nil]⟩
    | ok g => exact ⟨"KeyError", by simp [breakdown_row, hbl, hg, lookup_label_nil]⟩
  | none => exact ⟨"KeyError", by simp [breakdown_row, hbl, lookup_label_nil]⟩

theorem foldl_order_fst (ps : List (String × Int)) :
    ∀ (o : List String) (t : List (String × Int)),
      (ps.foldl (fun acc lc => (acc.1 ++ [lc.1], dictInsert acc.2 lc.1 lc.2)) (o, t)).1
        = o ++ ps.map Prod.fst := by
  induction ps with
  | nil => intro o t; simp
  | cons p ps ih =>
    intro o t
    rw [List.foldl_cons]
    dsimp only
    rw [ih (o ++ [p.1]) (dictInsert t p.1 p.2)]
    simp

/-! ## Claim theorems -/

/-- C4: the attention flag is a space unless the run state is RUNNING, in
which case it is "F" when the FAILED count is positive, else "D" when the
DELETED count is positive, else "H" when the HELD count is positive, else a
space; only the first matching condition in the priority order
FAILED, DELETED, HELD applies, and a non-RUNNING run always gets a space. -/
theorem run_flag_priority (rr : WmsRunReport) :
    run_flag rr =
      if rr.state = WmsStates.RUNNING then
        if 0 < rr.job_state_counts WmsStates.FAILED then "F"
        else if 0 < rr.job_state_counts WmsStates.DELETED then "D"
        else if 0 < rr.job_state_counts WmsStates.HELD then "H"
        else " "
      else " " := by
  unfold run_flag
  simp only [Nat.pos_iff_ne_zero]

/-- C10: `add_single_run_summary` returns the given table with exactly one
row appended at the end, determined by the run report alone; the rows already
present are unchanged in content and position, and the columns are unchanged. -/
theorem add_single_run_summary_frame (summary : SummaryTable) (rr : WmsRunReport) :
    (add_single_run_summary summary rr).dtype = summary.dtype ∧
    (add_single_run_summary summary rr).rows =
      summary.rows ++ (add_single_run_summary init_summary rr).rows ∧
    (add_single_run_summary summary rr).rows.length = summary.rows.length + 1 ∧
    (add_single_run_summary summary rr).rows.take summary.rows.length = summary.rows := by
  refine ⟨rfl, ?_, ?_, ?_⟩
  · simp [add_single_run_summary, init_summary]
  · simp [add_single_run_summary]
  · show (summary.rows ++ _).take summary.rows.length = summary.rows
    exact List.take_left summary.rows _

/-- C9: grouping jobs by state raises (the modelled KeyError, the
UnknownStateError of the spec) exactly on a collection containing a job whose
state value is outside the vocabulary, and returns normally whenever every
state is in the vocabulary. -/
theorem group_jobs_by_state_unknown_fatal (jobs : List WmsJobReport) :
    ((∃ j ∈ jobs, j.state.inVocab = false) →
      group_jobs_by_state jobs = Except.error "KeyError") ∧
    ((∀ j ∈ jobs, j.state.inVocab = true) → exceptOk (group_jobs_by_state jobs) = true) := by
  constructor
  · intro hex
    exact gjs_err jobs _ hex
  · intro hall
    unfold group_jobs_by_state
    rw [gjs_aux jobs (fun _ => []) hall]
    rfl

theorem group_jobs_by_state_unknown_fatal_witness :
    (∃ j ∈ jobsBad, j.state.inVocab = false) ∧
    group_jobs_by_state jobsBad = Except.error "KeyError" := by
  have h : ∃ j ∈ jobsBad, j.state.inVocab = false := by decide
  exact ⟨h, (group_jobs_by_state_unknown_fatal jobsBad).1 h⟩

/-- C8: on a collection whose states are all in the vocabulary,
`group_jobs_by_state` returns a partition: one bucket per vocabulary state
(possibly empty, even for empty input), the bucket for each state holding
exactly the jobs with that state in input order, the bucket lengths summing
to the number of jobs, and every job lying in exactly the bucket keyed by its
state. -/
theorem group_jobs_by_state_partition (jobs : List WmsJobReport)
    (h : ∀ j ∈ jobs, j.state.inVocab = true) :
    group_jobs_by_state jobs =
      Except.ok (WmsStates.all.map (fun s =>
        (s, jobs.filter (fun j => decide (j.state = PyStateValue.wms s))))) ∧
    ∀ g, group_jobs_by_state jobs = Except.ok g →
      g.map Prod.fst = WmsStates.all ∧
      (g.map (fun p => p.2.length)).sum = jobs.length ∧
      ∀ j ∈ jobs, ∀ p ∈ g, (j ∈ p.2 ↔ j.state = PyStateValue.wms p.1) := by
  have hchar : group_jobs_by_state jobs =
      Except.ok (WmsStates.all.map (fun s =>
        (s, jobs.filter (fun j => decide (j.state = PyStateValue.wms s))))) := by
    unfold group_jobs_by_state
    have haux := gjs_aux jobs (fun _ => []) h
    simpa using haux
  refine ⟨hchar, ?_⟩
  intro g hg
  rw [hchar] at hg
  injection hg with hg
  subst hg
  refine ⟨?_, ?_, ?_⟩
  · have hcomp1 : (Prod.fst ∘ fun s : WmsStates =>
        (s, jobs.filter (fun j => decide (j.state = PyStateValue.wms s)))) = fun s => s := rfl
    rw [List.map_map, hcomp1]
    decide
  · rw [List.map_map]
    have hcomp : ((fun p : WmsStates × List WmsJobReport => p.2.length) ∘ fun s =>
        (s, jobs.filter (fun j => decide (j.state = PyStateValue.wms s))))
        = fun s => (jobs.filter (fun j => decide (j.state = PyStateValue.wms s))).length := rfl
    rw [hcomp]
    exact filter_length_partition jobs h
  · intro j hj p hp
    obtain ⟨s, _, rfl⟩ := List.mem_map.mp hp
    simp only [List.mem_filter]
    constructor
    · rintro ⟨_, hd⟩
      exact of_decide_eq_true hd
    · intro hd
      exact ⟨hj, decide_eq_true hd⟩

theorem group_jobs_by_state_partition_witness :
    (∀ j ∈ jobsGood, j.state.inVocab = true) ∧
    group_jobs_by_state jobsGood =
      Except.ok (WmsStates.all.map (fun s =>
        (s, jobsGood.filter (fun j => decide (j.state = PyStateValue.wms s))))) :=
  ⟨by decide, (group_jobs_by_state_partition jobsGood (by decide)).1⟩

/-- C6: a label with a known expected total and no observed jobs gets a row
attributing the whole expected total (the shortfall with zero already
counted) to UNREADY and zero to every other state; with an expected total of
zero the row is all zeros, which differs from the all minus-one counts that
the unknown-label branch assigns. -/
theorem breakdown_row_unready_shortfall (by_label : List (String × List WmsJobReport))
    (totals : List (String × Int)) (label : String) (t : Int)
    (hobs : lookup_label by_label label = none)
    (htot : lookup_label totals label = some t) :
    breakdown_row by_label totals label =
      Except.ok ⟨label,
        WmsStates.all.map (fun s => if s = WmsStates.UNREADY then t else 0), t⟩ ∧
    (t = 0 →
      breakdown_row by_label totals label =
        Except.ok ⟨label, WmsStates.all.map (fun _ => 0), 0⟩) ∧
    WmsStates.all.map (fun _ => (0 : Int)) ≠ WmsStates.all.map (fun _ => (-1 : Int)) := by
  have hz : (WmsStates.all.map (fun _ => (0 : Int))).sum = 0 := by decide
  have hmain : breakdown_row by_label totals label =
      Except.ok ⟨label,
        WmsStates.all.map (fun s => if s = WmsStates.UNREADY then t else 0), t⟩ := by
    by_cases ht : t = 0
    · subst ht
      simp [breakdown_row, hobs, htot, hz]
    · have hne : (0 : Int) ≠ t := fun e => ht e.symm
      simp [breakdown_row, hobs, htot, hz, hne]
  refine ⟨hmain, ?_, by decide⟩
  intro ht
  subst ht
  rw [hmain]
  simp

theorem breakdown_row_unready_shortfall_witness :
    lookup_label ([] : List (String × List WmsJobReport)) "calibrate" = none ∧
    lookup_label [("calibrate", (0 : Int))] "calibrate" = some 0 ∧
    breakdown_row [] [("calibrate", 0)] "calibrate" =
      Except.ok ⟨"calibrate",
        WmsStates.all.map (fun s => if s = WmsStates.UNREADY then (0 : Int) else 0), 0⟩ :=
  ⟨by decide, by decide,
    (breakdown_row_unready_shortfall [] [("calibrate", 0)] "calibrate" 0
      (by decide) (by decide)).1⟩

/-- C1: evaluation of the code at the failing input. With no run summary and
one observed job, the fallback label order is computed, but the first row of
the loop raises KeyError at the line appending the EXPECTED cell
(`by_label_totals[label]` with an empty totals dict), so no label row is
emitted at all, contradicting the claimed one-row-per-label and all
minus-one-sentinel behaviour. -/
theorem breakdown_fallback_raises :
    rrFallback.run_summary = "" ∧
    compute_label_order rrFallback = Except.ok ⟨["isr"], [], true⟩ ∧
    breakdown_rows rrFallback = Except.error "KeyError" :=
  ⟨rfl, by decide, by decide⟩

/-- C2 counterexample: the breakdown does raise. A present but malformed run
summary ("isr", no colon) raises the split-unpack ValueError with no recovery,
and the absent-summary fallback raises KeyError as soon as any job was
observed. -/
theorem breakdown_not_graceful :
    breakdown_rows rrMalformed = Except.error "ValueError" ∧
    breakdown_rows rrFallback = Except.error "KeyError" :=
  ⟨by decide, by decide⟩

/-- C2 amended: when the run summary is absent the label order is the
alphabetically sorted set of observed labels and the warning is surfaced, and
that label-order computation itself never raises; but the full breakdown
completes only when no job was observed (otherwise the EXPECTED lookup
raises), and a malformed present run summary raises its parse error. -/
theorem fallback_label_order (rr : WmsRunReport) :
    (rr.run_summary = "" →
      exceptOk (compute_label_order rr) = true ∧
      ∀ lr, compute_label_order rr = Except.ok lr →
        lr.warned = true ∧ lr.by_label_totals = [] ∧
        List.Sorted pyLe lr.label_order ∧
        lr.label_order.Perm ((group_jobs_by_label rr.jobs).map Prod.fst)) ∧
    (rr.run_summary = "" → rr.jobs = [] →
      breakdown_rows rr =
        Except.ok [⟨"TOTAL", WmsStates.all.map (fun s => (rr.job_state_counts s : Int)), 0⟩]) ∧
    (rr.run_summary = "" → rr.jobs ≠ [] → exceptOk (breakdown_rows rr) = false) ∧
    (∀ msg, rr.run_summary ≠ "" → parse_run_summary rr.run_summary = Except.error msg →
      breakdown_rows rr = Except.error msg) := by
  refine ⟨?_, ?_, ?_, ?_⟩
  · intro h
    constructor
    · simp [compute_label_order, h, exceptOk]
    · intro lr hlr
      simp only [compute_label_order, if_pos h] at hlr
      injection hlr with hlr
      subst hlr
      exact ⟨rfl, rfl, List.sorted_insertionSort pyLe _, List.perm_insertionSort pyLe _⟩
  · intro h hj
    simp [breakdown_rows, compute_label_order, h, hj, group_jobs_by_label, mapExcept,
      List.insertionSort]
  · intro h hne
    have hkeys : (group_jobs_by_label rr.jobs).map Prod.fst ≠ [] := by
      intro e
      exact group_jobs_by_label_ne_nil rr.jobs hne (List.map_eq_nil_iff.mp e)
    have horder := insertionSort_ne_nil _ hkeys
    obtain ⟨l0, ls, hcons⟩ := List.exists_cons_of_ne_nil horder
    obtain ⟨e, he⟩ := breakdown_row_empty_totals (group_jobs_by_label rr.jobs) l0
    have hm : mapExcept (breakdown_row (group_jobs_by_label rr.jobs) []) (l0 :: ls)
        = Except.error e := mapExcept_cons_error _ _ _ e he
    simp [breakdown_rows, compute_label_order, h, hcons, hm, exceptOk]
  · intro msg hne hp
    simp [breakdown_rows, compute_label_order, hne, hp]

theorem fallback_label_order_witness :
    rrTwoJobs.run_summary = "" ∧
    compute_label_order rrTwoJobs = Except.ok ⟨["calibrate", "isr"], [], true⟩ ∧
    List.Sorted pyLe ["calibrate", "isr"] ∧
    (["calibrate", "isr"] : List String).Perm
      ((group_jobs_by_label rrTwoJobs.jobs).map Prod.fst) := by
  have h := ((fallback_label_order rrTwoJobs).1 rfl).2
    ⟨["calibrate", "isr"], [], true⟩ (by decide)
  exact ⟨rfl, by decide, h.2.2.1, h.2.2.2⟩

/-- C3 counterexample: at succeeded = 29, total = 100 the code prints "28"
because 29 / 100 * 100 in binary64 is 28.999999999999996 and `int` truncates,
while the exact floor of 29 / 100 * 100 is 29; the claimed exact-floor
formula therefore fails. -/
theorem percent_not_exact_floor :
    percent_succeeded rr29 = "28" ∧
    toString ((29 * 100) / 100 : Nat) = "29" ∧
    percent_succeeded rr29 ≠ toString ((29 * 100) / 100 : Nat) ∧
    (add_single_run_summary init_summary rr29).rows.map (fun r => r[2]?) = [some "28"] :=
  ⟨by decide, by decide, by decide, by decide⟩

/-- C3 amended: the percent field is "UNK" when the total is zero, and
otherwise is the decimal rendering of the binary64 evaluation of
`int(succeeded / total * 100)` (truncation of the correctly rounded float
product); this agrees with the exact truncated percentage at the cited
examples (2 of 3 gives "66", 7 of 10 gives "70") but is one below the exact
floor at 29 of 100, which gives "28". -/
theorem percent_succeeded_b64 (rr : WmsRunReport) :
    (rr.total_number_jobs = 0 → percent_succeeded rr = "UNK") ∧
    (rr.total_number_jobs ≠ 0 →
      percent_succeeded rr =
        toString (b64trunc (f64mul100
          (f64div (rr.job_state_counts WmsStates.SUCCEEDED) rr.total_number_jobs)))) ∧
    pyPercent 2 3 = 66 ∧ pyPercent 7 10 = 70 ∧ pyPercent 29 100 = 28 := by
  refine ⟨?_, ?_, by decide, by decide, by decide⟩
  · intro h
    simp [percent_succeeded, h]
  · intro h
    simp [percent_succeeded, h, pyPercent]

theorem percent_succeeded_b64_witness :
    rr29.total_number_jobs ≠ 0 ∧
    percent_succeeded rr29 =
      toString (b64trunc (f64mul100
        (f64div (rr29.job_state_counts WmsStates.SUCCEEDED) rr29.total_number_jobs))) :=
  ⟨by decide, (percent_succeeded_b64 rr29).2.1 (by decide)⟩

/-- C5 counterexample: for the summary "pipetaskInitX:2" the first declared
label is "pipetaskInitX", which is not "pipetaskInit", yet no synthetic entry
is prepended, because the code tests a string prefix of the raw summary, not
equality of the first label. -/
theorem prepend_condition_counterexample :
    compute_label_order rrPX =
      Except.ok ⟨["pipetaskInitX"], [("pipetaskInitX", 2)], false⟩ ∧
    ("pipetaskInitX" : String) ≠ "pipetaskInit" :=
  ⟨by decide, by decide⟩

/-- C5 amended: parsing splits on ";" then ":" into ordered (label, count)
pairs, and the synthetic ("pipetaskInit", 1) entry is prepended exactly when
the summary string does not start with the prefix "pipetaskInit" (a raw
string-prefix test, not an equality test on the first declared label); the
two cited round-trips hold as stated. -/
theorem parse_label_order_spec (rr : WmsRunReport) :
    (∀ ps, rr.run_summary ≠ "" → parse_run_summary rr.run_summary = Except.ok ps →
      ∀ lr, compute_label_order rr = Except.ok lr →
        lr.label_order =
          (if pyStartsWith rr.run_summary "pipetaskInit" then [] else ["pipetaskInit"])
            ++ ps.map Prod.fst ∧
        lr.warned = false) ∧
    compute_label_order rrRT1 =
      Except.ok ⟨["pipetaskInit", "isr", "calibrate"],
        [("pipetaskInit", 1), ("isr", 5), ("calibrate", 3)], false⟩ ∧
    compute_label_order rrRT2 =
      Except.ok ⟨["pipetaskInit", "isr", "calibrate"],
        [("pipetaskInit", 1), ("isr", 5), ("calibrate", 3)], false⟩ := by
  refine ⟨?_, by decide, by decide⟩
  intro ps hne hp lr hlr
  cases lr with
  | mk lo tot w =>
    simp only [compute_label_order, if_neg hne, hp] at hlr
    cases hsw : pyStartsWith rr.run_summary "pipetaskInit" with
    | false =>
      rw [hsw] at hlr
      simp only [Except.ok.injEq, LabelOrderResult.mk.injEq] at hlr
      obtain ⟨h1, h2, h3⟩ := hlr
      refine ⟨?_, h3.symm⟩
      rw [← h1]
      show (List.foldl (fun acc lc => (acc.1 ++ [lc.1], dictInsert acc.2 lc.1 lc.2))
          (["pipetaskInit"], [("pipetaskInit", (1 : Int))]) ps).1
          = ["pipetaskInit"] ++ ps.map Prod.fst
      exact foldl_order_fst ps ["pipetaskInit"] [("pipetaskInit", 1)]
    | true =>
      rw [hsw] at hlr
      simp only [Except.ok.injEq, LabelOrderResult.mk.injEq] at hlr
      obtain ⟨h1, h2, h3⟩ := hlr
      refine ⟨?_, h3.symm⟩
      rw [← h1]
      show (List.foldl (fun acc lc => (acc.1 ++ [lc.1], dictInsert acc.2 lc.1 lc.2))
          (([] : List String), ([] : List (String × Int))) ps).1
          = [] ++ ps.map Prod.fst
      exact foldl_order_fst ps [] []

theorem parse_label_order_spec_witness :
    rrRT2.run_summary ≠ "" ∧
    parse_run_summary rrRT2.run_summary = Except.ok [("isr", 5), ("calibrate", 3)] ∧
    (["pipetaskInit", "isr", "calibrate"] : List String) =
      (if pyStartsWith rrRT2.run_summary "pipetaskInit" then [] else ["pipetaskInit"])
        ++ ([(("isr" : String), (5 : Int)), ("calibrate", 3)].map Prod.fst) := by
  refine ⟨by decide, by decide, ?_⟩
  have h := (parse_label_order_spec rrRT2).1 [("isr", 5), ("calibrate", 3)] (by decide)
    (by decide)
    ⟨["pipetaskInit", "isr", "calibrate"],
      [("pipetaskInit", 1), ("isr", 5), ("calibrate", 3)], false⟩ (by decide)
  exact h.1

/-- C7: whenever the breakdown completes, its first row is the synthetic
TOTAL row whose per-state counts are taken directly from `job_state_counts`
(independently of the per-label grouping) and whose EXPECTED cell is the sum
of all per-label expected totals. -/
theorem breakdown_total_row_first (rr : WmsRunReport) (lr : LabelOrderResult)
    (rows : List DetailsRow)
    (hlr : compute_label_order rr = Except.ok lr)
    (hrows : breakdown_rows rr = Except.ok rows) :
    rows.head? =
      some ⟨"TOTAL", WmsStates.all.map (fun s => (rr.job_state_counts s : Int)),
        (lr.by_label_totals.map Prod.snd).sum⟩ := by
  simp only [breakdown_rows, hlr] at hrows
  cases hm : mapExcept (breakdown_row (group_jobs_by_label rr.jobs) lr.by_label_totals)
      lr.label_order with
  | error e =>
    rw [hm] at hrows
    exact absurd hrows (by simp)
  | ok rs =>
    rw [hm] at hrows
    injection hrows with hrows
    rw [← hrows]
    rfl

theorem breakdown_total_row_first_witness :
    compute_label_order rrW7 =
      Except.ok ⟨["pipetaskInit", "isr", "calibrate"],
        [("pipetaskInit", 1), ("isr", 5), ("calibrate", 0)], false⟩ ∧
    breakdown_rows rrW7 =
      Except.ok [⟨"TOTAL", [0, 0, 0, 1, 0, 0, 0], 6⟩,
                 ⟨"pipetaskInit", [1, 0, 0, 0, 0, 0, 0], 1⟩,
                 ⟨"isr", [0, 0, 0, 1, 0, 0, 0], 5⟩,
                 ⟨"calibrate", [0, 0, 0, 0, 0, 0, 0], 0⟩] ∧
    ([⟨"TOTAL", [0, 0, 0, 1, 0, 0, 0], 6⟩,
      ⟨"pipetaskInit", [1, 0, 0, 0, 0, 0, 0], 1⟩,
      ⟨"isr", [0, 0, 0, 1, 0, 0, 0], 5⟩,
      ⟨"calibrate", [0, 0, 0, 0, 0, 0, 0], 0⟩] : List DetailsRow).head? =
      some ⟨"TOTAL", WmsStates.all.map (fun s => (rrW7.job_state_counts s : Int)),
        ([(("pipetaskInit" : String), (1 : Int)), ("isr", 5), ("calibrate", 0)].map
          Prod.snd).sum⟩ := by
  refine ⟨by decide, by decide, ?_⟩
  exact breakdown_total_row_first rrW7
    ⟨["pipetaskInit", "isr", "calibrate"],
      [("pipetaskInit", 1), ("isr", 5), ("calibrate", 0)], false⟩
    [⟨"TOTAL", [0, 0, 0, 1, 0, 0, 0], 6⟩,
     ⟨"pipetaskInit", [1, 0, 0, 0, 0, 0, 0], 1⟩,
     ⟨"isr", [0, 0, 0, 1, 0, 0, 0], 5⟩,
     ⟨"calibrate", [0, 0, 0, 0, 0, 0, 0], 0⟩]
    (by decide) (by decide)
